import Mathlib

/-!
Verification development for the event-driven backtester.

The definitions below are a shallow embedding of the Python sources:
* `src/Backtester/event.py` — the event model (`MarketEvent`, `SignalEvent`,
  `OrderEvent`, `FillEvent`) and the commission default.
* `src/Strategies/hft_portfolio.py` — the portfolio ledger (`PortfolioHFT`).
* `src/backtest.py` — the simulation loop (`Backtest._run_backtest`).
* `src/performance.py` — `create_drawdowns`.

Python floats are modelled as rationals (`ℚ`); a pandas `NaN` cell is
modelled as `none : Option ℚ`.  Python dictionaries keyed by symbol are
modelled as functions `String → _`; the queue `queue.Queue` is a FIFO list
whose cells are `Option Event` because the code enqueues `None` when the
naive sizer declines to produce an order.
-/

namespace Backtester

/-! ### Event model (src/Backtester/event.py) -/

/-- Data of a `SignalEvent` (event.py, `SignalEvent.__init__`). -/
structure SignalData where
  strategy_id : String
  symbol : String
  datetime : Int
  signal_type : String
  strength : ℚ
deriving DecidableEq

/-- Data of an `OrderEvent` (event.py, `OrderEvent.__init__`). -/
structure OrderData where
  symbol : String
  order_type : String
  quantity : Int
  direction : String
deriving DecidableEq

/-- Data of a `FillEvent` after construction (event.py, `FillEvent.__init__`);
`commission` is the stored value, after the default has been applied. -/
structure FillData where
  timeindex : Int
  symbol : String
  exchange : String
  quantity : Int
  direction : String
  fill_cost : ℚ
  commission : ℚ
deriving DecidableEq

/-- The tagged union of events.  `other ty` stands for an object whose
`type` attribute is the string `ty`, none of the four known tags; the
drain loop of backtest.py dispatches purely on that string. -/
inductive Event where
  | market
  | signal (s : SignalData)
  | order (o : OrderData)
  | fill (f : FillData)
  | other (ty : String)
deriving DecidableEq

/-- The `type` discriminant attribute of an event. -/
def Event.type : Event → String
  | .market => "MARKET"
  | .signal _ => "SIGNAL"
  | .order _ => "ORDER"
  | .fill _ => "FILL"
  | .other ty => ty

/-- FillEvent.calculate_commission (event.py): IBKR fixed rate of 0.005
per share with a floor of 1.00: `quantity * .005` if that exceeds 1,
else `1.0`. -/
def calculate_commission (quantity : Int) : ℚ :=
  if (quantity : ℚ) * (5 / 1000) > 1 then (quantity : ℚ) * (5 / 1000) else 1

/-- The commission stored by `FillEvent.__init__`: the explicit value when
one is supplied, otherwise `calculate_commission`. -/
def fillCommission (quantity : Int) (commission : Option ℚ) : ℚ :=
  match commission with
  | none => calculate_commission quantity
  | some c => c

/-- FillEvent.__init__ (event.py): builds the stored fill record,
applying the commission default when `commission` is `none`. -/
def mkFillEvent (timeindex : Int) (symbol exchange : String) (quantity : Int)
    (direction : String) (fill_cost : ℚ) (commission : Option ℚ) : FillData :=
  ⟨timeindex, symbol, exchange, quantity, direction, fill_cost,
    fillCommission quantity commission⟩

/-! ### Portfolio ledger (src/Strategies/hft_portfolio.py) -/

/-- The view of the DataHandler the portfolio consumes: for each symbol,
`get_latest_bar_datetime` and `get_latest_bar_value(_, "close")`. -/
structure Bar where
  datetime : String → Int
  close : String → ℚ

/-- The `current_holdings` dictionary (construct_current_holdings):
cash, cumulative commission, total equity and per-symbol market value. -/
structure Holdings where
  cash : ℚ
  commission : ℚ
  total : ℚ
  value : String → ℚ

/-- One record of the `all_positions` list: a datetime key plus the
per-symbol position dictionary. -/
structure PositionsSnapshot where
  datetime : Int
  pos : String → Int

/-- One record of the `all_holdings` list. -/
structure HoldingsSnapshot where
  datetime : Int
  cash : ℚ
  commission : ℚ
  total : ℚ
  value : String → ℚ

/-- The state of a `PortfolioHFT` object. -/
structure Portfolio where
  symbol_list : List String
  start_date : Int
  initial_capital : ℚ
  all_positions : List PositionsSnapshot
  current_positions : String → Int
  all_holdings : List HoldingsSnapshot
  current_holdings : Holdings

/-- PortfolioHFT.construct_all_positions: one seed record, every symbol
at 0, datetime at `start_date`. -/
def construct_all_positions (start_date : Int) : List PositionsSnapshot :=
  [⟨start_date, fun _ => 0⟩]

/-- PortfolioHFT.construct_all_holdings: one seed record, symbols at 0,
cash and total at the initial capital, commission 0, at `start_date`. -/
def construct_all_holdings (start_date : Int) (initial_capital : ℚ) :
    List HoldingsSnapshot :=
  [⟨start_date, initial_capital, 0, initial_capital, fun _ => 0⟩]

/-- PortfolioHFT.construct_current_holdings. -/
def construct_current_holdings (initial_capital : ℚ) : Holdings :=
  ⟨initial_capital, 0, initial_capital, fun _ => 0⟩

/-- PortfolioHFT.__init__. -/
def Portfolio.init (symbol_list : List String) (start_date : Int)
    (initial_capital : ℚ) : Portfolio :=
  { symbol_list := symbol_list
    start_date := start_date
    initial_capital := initial_capital
    all_positions := construct_all_positions start_date
    current_positions := fun _ => 0
    all_holdings := construct_all_holdings start_date initial_capital
    current_holdings := construct_current_holdings initial_capital }

/-- PortfolioHFT.update_timeindex: appends one positions record (a copy
of `current_positions`) and one holdings record at the latest bar
datetime of the first symbol; the holdings total starts from cash and
accumulates `current_positions[s] * close[s]` over the symbol list. -/
def Portfolio.update_timeindex (p : Portfolio) (bars : Bar) : Portfolio :=
  { p with
    all_positions := p.all_positions ++
      [⟨bars.datetime p.symbol_list.headI, fun s => p.current_positions s⟩]
    all_holdings := p.all_holdings ++
      [⟨bars.datetime p.symbol_list.headI,
        p.current_holdings.cash,
        p.current_holdings.commission,
        p.symbol_list.foldl
          (fun acc s => acc + (p.current_positions s : ℚ) * bars.close s)
          p.current_holdings.cash,
        fun s => (p.current_positions s : ℚ) * bars.close s⟩] }

/-- The fill direction sign of hft_portfolio.py: starts at 0, `1` when
the direction string is BUY, `-1` when it is SELL. -/
def fillDir (direction : String) : Int :=
  if direction = "BUY" then 1 else if direction = "SELL" then -1 else 0

/-- PortfolioHFT.update_positions_from_fill. -/
def Portfolio.update_positions_from_fill (p : Portfolio) (fill : FillData) :
    Portfolio :=
  { p with current_positions := fun s =>
      if s = fill.symbol then
        p.current_positions s + fillDir fill.direction * fill.quantity
      else p.current_positions s }

/-- PortfolioHFT.update_holdings_from_fill: the cost is the fill
direction times the latest close price times the quantity; cash and
total both decrease by cost plus commission. -/
def Portfolio.update_holdings_from_fill (p : Portfolio) (bars : Bar)
    (fill : FillData) : Portfolio :=
  { p with current_holdings :=
    { cash := p.current_holdings.cash -
        ((fillDir fill.direction : ℚ) * bars.close fill.symbol *
          (fill.quantity : ℚ) + fill.commission)
      commission := p.current_holdings.commission + fill.commission
      total := p.current_holdings.total -
        ((fillDir fill.direction : ℚ) * bars.close fill.symbol *
          (fill.quantity : ℚ) + fill.commission)
      value := fun s =>
        if s = fill.symbol then
          p.current_holdings.value s +
            (fillDir fill.direction : ℚ) * bars.close fill.symbol *
              (fill.quantity : ℚ)
        else p.current_holdings.value s } }

/-- PortfolioHFT.update_fill: acts only on events whose discriminant is
FILL. -/
def Portfolio.update_fill (p : Portfolio) (bars : Bar) (event : Event) :
    Portfolio :=
  match event with
  | .fill f => (p.update_positions_from_fill f).update_holdings_from_fill bars f
  | _ => p

/-- PortfolioHFT.generate_naive_order: fixed quantity 100 market orders;
LONG and SHORT only when flat, EXIT closes the whole position. -/
def Portfolio.generate_naive_order (p : Portfolio) (signal : SignalData) :
    Option OrderData :=
  if signal.signal_type = "LONG" ∧ p.current_positions signal.symbol = 0 then
    some ⟨signal.symbol, "MKT", 100, "BUY"⟩
  else if signal.signal_type = "SHORT" ∧ p.current_positions signal.symbol = 0 then
    some ⟨signal.symbol, "MKT", 100, "SELL"⟩
  else if signal.signal_type = "EXIT" ∧ 0 < p.current_positions signal.symbol then
    some ⟨signal.symbol, "MKT", |p.current_positions signal.symbol|, "SELL"⟩
  else if signal.signal_type = "EXIT" ∧ p.current_positions signal.symbol < 0 then
    some ⟨signal.symbol, "MKT", |p.current_positions signal.symbol|, "BUY"⟩
  else none

/-- PortfolioHFT.update_signal: on a SIGNAL event the naive order (which
may be `none`) is put on the event queue unconditionally; the portfolio
fields themselves are untouched. -/
def Portfolio.update_signal (p : Portfolio) (event : Event) :
    Portfolio × List (Option Event) :=
  match event with
  | .signal sd => (p, [(p.generate_naive_order sd).map Event.order])
  | _ => (p, [])

/-- One ledger-mutating call on the portfolio, as issued by the drain
loop of backtest.py: update_timeindex on a MARKET event, update_signal
on a SIGNAL event, update_fill on a FILL event. -/
inductive LedgerOp where
  | market (bars : Bar)
  | signal (e : Event)
  | fill (bars : Bar) (e : Event)

/-- Applies one ledger operation to the portfolio. -/
def applyLedgerOp (p : Portfolio) : LedgerOp → Portfolio
  | .market bars => p.update_timeindex bars
  | .signal e => (p.update_signal e).1
  | .fill bars e => p.update_fill bars e

/-- The number of MARKET operations in a ledger-operation sequence. -/
def marketCount (ops : List LedgerOp) : Nat :=
  ops.countP fun op => match op with | .market _ => true | _ => false

/-- The latest-bar datetimes (for reference symbol `sym`) of the MARKET
operations in a ledger-operation sequence, in order. -/
def marketDatetimes (sym : String) (ops : List LedgerOp) : List Int :=
  ops.filterMap fun op => match op with
    | .market b => some (b.datetime sym)
    | _ => none

/-! ### Simulation loop (src/backtest.py) -/

/-- The state the drain loop of `Backtest._run_backtest` acts on: the
portfolio, the strategy state, the latest market data, and the three
event counters. -/
structure BTState (Strat : Type) where
  portfolio : Portfolio
  strat : Strat
  bars : Bar
  signals : Nat
  orders : Nat
  fills : Nat

/-- One dispatch of the drain loop body (backtest.py lines 97-112) on a
dequeued non-None event: returns the updated state and the list of queue
cells the dispatch enqueued.  `calculate_signals` abstracts the external
SignalGenerator and `execute_order` the external ExecutionSimulator.
There is no branch for an unknown discriminant: such an event falls
through the if/elif chain and the state is returned unchanged. -/
def btStep {Strat : Type}
    (calculate_signals : Strat → Bar → Strat × List (Option Event))
    (execute_order : OrderData → List (Option Event))
    (st : BTState Strat) (event : Event) : BTState Strat × List (Option Event) :=
  match event with
  | .market =>
    ({ st with
        strat := (calculate_signals st.strat st.bars).1
        portfolio := st.portfolio.update_timeindex st.bars },
      (calculate_signals st.strat st.bars).2)
  | .signal _ =>
    ({ st with
        signals := st.signals + 1
        portfolio := (st.portfolio.update_signal event).1 },
      (st.portfolio.update_signal event).2)
  | .order o =>
    ({ st with orders := st.orders + 1 }, execute_order o)
  | .fill _ =>
    ({ st with
        fills := st.fills + 1
        portfolio := st.portfolio.update_fill st.bars event }, [])
  | .other _ => (st, [])

/-- The result of one drain pass: final state, the dispatched events in
dispatch order, every queue cell enqueued during the pass in enqueue
order, and the queue cells left unprocessed (empty unless the fuel ran
out). -/
structure DrainResult (σ : Type) where
  state : σ
  trace : List Event
  gen : List (Option Event)
  rem : List (Option Event)

/-- The inner while-loop of `Backtest._run_backtest`: dequeue from the
head until the queue is empty; a `none` cell is discarded by the
`event is not None` guard; a `some` cell is dispatched through `step`
and the cells it enqueues are appended at the tail.  `fuel` bounds the
number of iterations so the recursion is structural; a completed pass is
one with `rem = []`. -/
def drain {σ : Type} (step : σ → Event → σ × List (Option Event)) :
    Nat → σ → List (Option Event) → DrainResult σ
  | 0, st, q => ⟨st, [], [], q⟩
  | _ + 1, st, [] => ⟨st, [], [], []⟩
  | fuel + 1, st, none :: q => drain step fuel st q
  | fuel + 1, st, some e :: q =>
    ⟨(drain step fuel (step st e).1 (q ++ (step st e).2)).state,
      e :: (drain step fuel (step st e).1 (q ++ (step st e).2)).trace,
      (step st e).2 ++ (drain step fuel (step st e).1 (q ++ (step st e).2)).gen,
      (drain step fuel (step st e).1 (q ++ (step st e).2)).rem⟩

/-! ### Performance pipeline (hft_portfolio.py, performance.py) -/

/-- The tail of pandas `pct_change` relative to the previous value. -/
def pctChangeAux (prev : ℚ) : List ℚ → List (Option ℚ)
  | [] => []
  | x :: xs => some (x / prev - 1) :: pctChangeAux x xs

/-- pandas `Series.pct_change`: the first cell is NaN, cell `t` is
`x_t / x_(t-1) - 1`. -/
def pct_change : List ℚ → List (Option ℚ)
  | [] => []
  | x :: xs => none :: pctChangeAux x xs

/-- pandas `Series.cumprod` with its default `skipna=True`: NaN cells
stay NaN and are skipped by the running product. -/
def cumprodSkipna (acc : ℚ) : List (Option ℚ) → List (Option ℚ)
  | [] => []
  | none :: xs => none :: cumprodSkipna acc xs
  | some x :: xs => some (acc * x) :: cumprodSkipna (acc * x) xs

/-- Elementwise `1.0 + returns`; NaN propagates. -/
def onePlus (l : List (Option ℚ)) : List (Option ℚ) :=
  l.map (Option.map fun r => 1 + r)

/-- PortfolioHFT.create_equity_curve_dataframe, applied to the `total`
column of the holdings history: the returns column and the equity-curve
column `(1.0 + returns).cumprod()`. -/
def create_equity_curve (totals : List ℚ) :
    List (Option ℚ) × List (Option ℚ) :=
  (pct_change totals, cumprodSkipna 1 (onePlus (pct_change totals)))

/-- Python `max(a, b)` where `b` may be NaN: `b if b > a else a`, and
every comparison with NaN is False, so a NaN second argument keeps the
first. -/
def pymax (a : ℚ) (b : Option ℚ) : ℚ :=
  match b with
  | none => a
  | some x => if a < x then x else a

/-- The Python test `drawdown.iloc[t] == 0`; False when the cell is NaN. -/
def ddIsZero : Option ℚ → Bool
  | none => false
  | some x => x = 0

/-- One iteration of the `create_drawdowns` loop: from the running
high-water mark and previous duration cell, produce the new high-water
mark, drawdown cell and duration cell for price cell `p`. -/
def ddStep (hwm : ℚ) (dur : Option ℚ) (p : Option ℚ) :
    ℚ × Option ℚ × Option ℚ :=
  (pymax hwm p,
    p.map fun x => pymax hwm p - x,
    if ddIsZero (p.map fun x => pymax hwm p - x) then some 0
    else dur.map fun d => d + 1)

/-- The `for t in range(1, len(idx))` loop of `create_drawdowns`,
running over the price cells from index 1 on. -/
def drawdownsAux (hwm : ℚ) (dur : Option ℚ) :
    List (Option ℚ) → List (ℚ × Option ℚ × Option ℚ)
  | [] => []
  | p :: ps =>
    ddStep hwm dur p ::
      drawdownsAux (ddStep hwm dur p).1 (ddStep hwm dur p).2.2 ps

/-- pandas `Series.max` with its default `skipna=True`: the maximum of
the non-NaN cells, NaN when there are none. -/
def omaxList (l : List (Option ℚ)) : Option ℚ :=
  match l.reduceOption with
  | [] => none
  | x :: xs => some (xs.foldl max x)

/-- create_drawdowns (performance.py): the high-water mark list starts
at 0, index 0 of the drawdown and duration series is never assigned
(NaN), and the maxima are taken with NaN skipped. -/
def create_drawdowns (pnl : List (Option ℚ)) :
    List (Option ℚ) × Option ℚ × Option ℚ :=
  match pnl with
  | [] => ([], none, none)
  | _ :: rest =>
    (none :: (drawdownsAux 0 none rest).map (fun r => r.2.1),
      omaxList (none :: (drawdownsAux 0 none rest).map (fun r => r.2.1)),
      omaxList (none :: (drawdownsAux 0 none rest).map (fun r => r.2.2)))

/-- PortfolioHFT.output_summary_stats, restricted to the two drawdown
numbers it reports: `create_drawdowns` applied to the equity-curve
column, keeping the maximum drawdown and the maximum duration. -/
def summary_drawdown_numbers (totals : List ℚ) : Option ℚ × Option ℚ :=
  ((create_drawdowns (create_equity_curve totals).2).2.1,
    (create_drawdowns (create_equity_curve totals).2).2.2)

/-- A minimal concrete SignalGenerator used by witnesses: emits one LONG
signal for symbol A on every bar. -/
def oneSignalStrategy : Unit → Bar → Unit × List (Option Event) :=
  fun _ _ => ((), [some (Event.signal ⟨"s1", "A", 1, "LONG", 1⟩)])

/-- A minimal concrete ExecutionSimulator used by witnesses: one FILL
per order, commission 1, per the execution collaborator contract. -/
def simpleExecutor : OrderData → List (Option Event) :=
  fun o => [some (Event.fill ⟨1, o.symbol, "SIM", o.quantity, o.direction, 0, 1⟩)]

/-- A fresh backtest state over one symbol used by witnesses. -/
def witnessState : BTState Unit :=
  ⟨Portfolio.init ["A"] 0 100000, (), ⟨fun _ => 1, fun _ => 10⟩, 0, 0, 0⟩

/-! ### Claim C7 -/

/-- C7: a FillEvent constructed without an explicit commission stores
`max (quantity * 0.005) 1.00`, and an explicitly supplied commission is
stored unchanged. -/
theorem fill_commission_default (q : Int) (c : ℚ) :
    fillCommission q none = max ((q : ℚ) * (5 / 1000)) 1 ∧
    fillCommission q (some c) = c := by
  constructor
  · show calculate_commission q = _
    unfold calculate_commission
    rcases lt_or_le 1 ((q : ℚ) * (5 / 1000)) with h | h
    · rw [if_pos h, max_eq_left h.le]
    · rw [if_neg (not_lt.mpr h), max_eq_right h]
  · rfl

/-! ### Claim C8 -/

/-- C8 counterexample: with `quantity = 50` the stored default commission
is `1.00`, not the `1.25` the claim asserts: `50 * 0.005 = 0.25` is below
the floor. -/
theorem fill_commission_at_50_is_not_125 :
    fillCommission 50 none = 1 ∧ (1 : ℚ) ≠ 125 / 100 := by
  constructor
  · show calculate_commission 50 = 1
    unfold calculate_commission
    norm_num
  · norm_num

/-- C8 amended: with no explicit commission, `quantity = 50` yields
commission `1.00` (the floor applies since `50 * 0.005 = 0.25 < 1.00`),
`quantity = 100` yields `1.00`, and `quantity = 300` yields `1.50`. -/
theorem fill_commission_values :
    fillCommission 50 none = 1 ∧ fillCommission 100 none = 1 ∧
    fillCommission 300 none = 3 / 2 := by
  refine ⟨?_, ?_, ?_⟩ <;>
    · show calculate_commission _ = _
      unfold calculate_commission
      norm_num

/-! ### Claim C1 -/

/-- C1: applying a BUY or SELL fill through update_fill changes cash by
exactly minus (direction sign times the latest close price times the
quantity, plus the commission); update_timeindex and update_signal never
change cash. -/
theorem cash_changes_only_on_fills (p : Portfolio) (bars : Bar) (f : FillData)
    (h : f.direction = "BUY" ∨ f.direction = "SELL") :
    (p.update_fill bars (Event.fill f)).current_holdings.cash =
      p.current_holdings.cash -
        ((if f.direction = "BUY" then (1 : ℚ) else -1) *
          bars.close f.symbol * (f.quantity : ℚ) + f.commission) ∧
    (∀ (q : Portfolio) (b : Bar),
      (q.update_timeindex b).current_holdings.cash =
        q.current_holdings.cash) ∧
    (∀ (q : Portfolio) (e : Event),
      ((q.update_signal e).1).current_holdings.cash =
        q.current_holdings.cash) := by
  refine ⟨?_, fun q b => rfl, fun q e => ?_⟩
  · rcases h with h | h <;>
      simp [Portfolio.update_fill, Portfolio.update_holdings_from_fill,
        Portfolio.update_positions_from_fill, fillDir, h]
  · cases e <;> rfl

/-- C1 witness: a concrete BUY fill of 100 shares at close 10 with
commission 1 against a fresh portfolio. -/
theorem cash_changes_only_on_fills_witness :
    ((Portfolio.init ["A"] 0 100000).update_fill ⟨fun _ => 1, fun _ => 10⟩
        (Event.fill ⟨1, "A", "SIM", 100, "BUY", 0, 1⟩)).current_holdings.cash =
      100000 - ((if ("BUY" : String) = "BUY" then (1 : ℚ) else -1) *
        10 * ((100 : Int) : ℚ) + 1) :=
  (cash_changes_only_on_fills (Portfolio.init ["A"] 0 100000)
    ⟨fun _ => 1, fun _ => 10⟩ ⟨1, "A", "SIM", 100, "BUY", 0, 1⟩ (Or.inl rfl)).1

/-! ### Claim C3 -/

/-- Accumulating a map over a list into a starting value is the starting
value plus the sum of the mapped list. -/
theorem foldl_add_map_sum (f : String → ℚ) :
    ∀ (l : List String) (a : ℚ),
      l.foldl (fun acc s => acc + f s) a = a + (l.map f).sum
  | [], a => by simp
  | s :: l, a => by
    rw [List.foldl_cons, foldl_add_map_sum f l (a + f s), List.map_cons,
      List.sum_cons, add_assoc]

/-- C3: the holdings record appended by update_timeindex has total equal
to current cash plus the sum over the symbol list of position times that
bar's close, its per-symbol value entries are exactly position times
close, and in the drain loop a MARKET dispatch applies update_timeindex
to the portfolio as it stands when the MARKET event is dequeued (before
any of that bar's fills, which are enqueued later). -/
theorem timeindex_snapshot_valuation (p : Portfolio) (bars : Bar) :
    (p.update_timeindex bars).all_holdings =
      p.all_holdings ++
        [⟨bars.datetime p.symbol_list.headI,
          p.current_holdings.cash,
          p.current_holdings.commission,
          p.current_holdings.cash +
            (p.symbol_list.map fun s =>
              (p.current_positions s : ℚ) * bars.close s).sum,
          fun s => (p.current_positions s : ℚ) * bars.close s⟩] ∧
    (∀ (Strat : Type) (calcSig : Strat → Bar → Strat × List (Option Event))
        (execOrd : OrderData → List (Option Event)) (st : BTState Strat),
      (btStep calcSig execOrd st Event.market).1.portfolio =
        st.portfolio.update_timeindex st.bars) := by
  constructor
  · unfold Portfolio.update_timeindex
    rw [foldl_add_map_sum (fun s => (p.current_positions s : ℚ) * bars.close s)]
  · intro Strat calcSig execOrd st
    rfl

/-! ### Claim C4 -/

/-- C4: the naive sizing policy of generate_naive_order: LONG and SHORT
produce one fixed-quantity 100 market order exactly when the position is
flat, EXIT closes the whole position exactly when it is non-zero, every
other signal type produces nothing; and two LONG signals, the second
arriving when the symbol already holds a position, enqueue exactly one
OrderEvent and one None in total. -/
theorem naive_order_policy (p : Portfolio) (sd : SignalData) :
    (sd.signal_type = "LONG" →
      p.generate_naive_order sd =
        if p.current_positions sd.symbol = 0 then
          some ⟨sd.symbol, "MKT", 100, "BUY"⟩ else none) ∧
    (sd.signal_type = "SHORT" →
      p.generate_naive_order sd =
        if p.current_positions sd.symbol = 0 then
          some ⟨sd.symbol, "MKT", 100, "SELL"⟩ else none) ∧
    (sd.signal_type = "EXIT" →
      p.generate_naive_order sd =
        if 0 < p.current_positions sd.symbol then
          some ⟨sd.symbol, "MKT", |p.current_positions sd.symbol|, "SELL"⟩
        else if p.current_positions sd.symbol < 0 then
          some ⟨sd.symbol, "MKT", |p.current_positions sd.symbol|, "BUY"⟩
        else none) ∧
    (sd.signal_type ≠ "LONG" → sd.signal_type ≠ "SHORT" →
      sd.signal_type ≠ "EXIT" → p.generate_naive_order sd = none) ∧
    (∀ p1 p2 : Portfolio, sd.signal_type = "LONG" →
      p1.current_positions sd.symbol = 0 →
      p2.current_positions sd.symbol ≠ 0 →
      (p1.update_signal (Event.signal sd)).2 =
          [some (Event.order ⟨sd.symbol, "MKT", 100, "BUY"⟩)] ∧
        (p2.update_signal (Event.signal sd)).2 = [none]) := by
  refine ⟨?_, ?_, ?_, ?_, ?_⟩
  · intro h
    by_cases hq : p.current_positions sd.symbol = 0 <;>
      simp [Portfolio.generate_naive_order, h, hq]
  · intro h
    by_cases hq : p.current_positions sd.symbol = 0 <;>
      simp [Portfolio.generate_naive_order, h, hq]
  · intro h
    rcases lt_trichotomy (p.current_positions sd.symbol) 0 with hq | hq | hq
    · simp [Portfolio.generate_naive_order, h, hq, asymm hq, ne_of_lt hq]
    · simp [Portfolio.generate_naive_order, h, hq]
    · simp [Portfolio.generate_naive_order, h, hq, asymm hq]
  · intro h1 h2 h3
    simp [Portfolio.generate_naive_order, h1, h2, h3]
  · intro p1 p2 h h1 h2
    constructor
    · simp [Portfolio.update_signal, Portfolio.generate_naive_order, h, h1]
    · simp [Portfolio.update_signal, Portfolio.generate_naive_order, h, h2]

/-- C4 witness: a concrete LONG signal against a flat portfolio and
against one already holding 100 shares. -/
theorem naive_order_policy_witness :
    (("LONG" : String) = "LONG") ∧
    ((Portfolio.init ["A"] 0 100000).current_positions "A" = 0) ∧
    (({ Portfolio.init ["A"] 0 100000 with
        current_positions := fun _ => 100 } : Portfolio).current_positions "A"
      ≠ 0) ∧
    (((Portfolio.init ["A"] 0 100000).update_signal
        (Event.signal ⟨"s1", "A", 0, "LONG", 1⟩)).2 =
      [some (Event.order ⟨"A", "MKT", 100, "BUY"⟩)] ∧
      (({ Portfolio.init ["A"] 0 100000 with
          current_positions := fun _ => 100 } : Portfolio).update_signal
        (Event.signal ⟨"s1", "A", 0, "LONG", 1⟩)).2 = [none]) :=
  ⟨rfl, rfl, by decide,
    (naive_order_policy (Portfolio.init ["A"] 0 100000)
      ⟨"s1", "A", 0, "LONG", 1⟩).2.2.2.2
      (Portfolio.init ["A"] 0 100000)
      { Portfolio.init ["A"] 0 100000 with current_positions := fun _ => 100 }
      rfl rfl (by decide)⟩

/-! ### Claim C10 -/

/-- C10: when the sizing preconditions fail, generate_naive_order is
None, update_signal still enqueues that None and leaves the portfolio
unchanged, and the drain loop discards a None queue cell without
dispatching anything: draining `none :: q` is exactly draining `q`, so
state, counters, trace and generated events are all unaffected by the
None cell. -/
theorem none_order_enqueued_and_discarded (p : Portfolio) (sd : SignalData)
    (h : ((sd.signal_type = "LONG" ∨ sd.signal_type = "SHORT") ∧
            p.current_positions sd.symbol ≠ 0) ∨
         (sd.signal_type = "EXIT" ∧ p.current_positions sd.symbol = 0)) :
    p.generate_naive_order sd = none ∧
    (p.update_signal (Event.signal sd)).1 = p ∧
    (p.update_signal (Event.signal sd)).2 = [none] ∧
    (∀ (σ : Type) (step : σ → Event → σ × List (Option Event))
        (fuel : Nat) (st : σ) (q : List (Option Event)),
      drain step (fuel + 1) st (none :: q) = drain step fuel st q) := by
  have hnone : p.generate_naive_order sd = none := by
    rcases h with ⟨h1 | h1, h2⟩ | ⟨h1, h2⟩ <;>
      simp [Portfolio.generate_naive_order, h1, h2]
  refine ⟨hnone, rfl, ?_, fun σ step fuel st q => rfl⟩
  simp [Portfolio.update_signal, hnone]

/-- C10 witness: a LONG signal for a symbol already holding 100 shares. -/
theorem none_order_enqueued_and_discarded_witness :
    ((("LONG" : String) = "LONG" ∨ ("LONG" : String) = "SHORT") ∧
        ({ Portfolio.init ["A"] 0 100000 with
            current_positions := fun _ => 100 } : Portfolio).current_positions
          "A" ≠ 0 ∨
      ("LONG" : String) = "EXIT" ∧
        ({ Portfolio.init ["A"] 0 100000 with
            current_positions := fun _ => 100 } : Portfolio).current_positions
          "A" = 0) ∧
    ({ Portfolio.init ["A"] 0 100000 with
        current_positions := fun _ => 100 } : Portfolio).generate_naive_order
      ⟨"s1", "A", 0, "LONG", 1⟩ = none ∧
    (({ Portfolio.init ["A"] 0 100000 with
        current_positions := fun _ => 100 } : Portfolio).update_signal
      (Event.signal ⟨"s1", "A", 0, "LONG", 1⟩)).2 = [none] := by
  refine ⟨Or.inl ⟨Or.inl rfl, by decide⟩, ?_, ?_⟩
  · exact (none_order_enqueued_and_discarded
      { Portfolio.init ["A"] 0 100000 with current_positions := fun _ => 100 }
      ⟨"s1", "A", 0, "LONG", 1⟩ (Or.inl ⟨Or.inl rfl, by decide⟩)).1
  · exact (none_order_enqueued_and_discarded
      { Portfolio.init ["A"] 0 100000 with current_positions := fun _ => 100 }
      ⟨"s1", "A", 0, "LONG", 1⟩ (Or.inl ⟨Or.inl rfl, by decide⟩)).2.2.1

/-! ### Claim C2 -/

/-- Every ledger operation preserves the symbol list. -/
theorem applyLedgerOp_symbol_list (p : Portfolio) (op : LedgerOp) :
    (applyLedgerOp p op).symbol_list = p.symbol_list := by
  cases op with
  | market b => rfl
  | signal e => cases e <;> rfl
  | fill b e => cases e <;> rfl

/-- Folding ledger operations appends exactly the MARKET datetimes to
the datetime columns of both histories: only update_timeindex appends,
update_signal and update_fill leave the histories alone. -/
theorem foldl_ledger_datetimes :
    ∀ (ops : List LedgerOp) (p : Portfolio),
      ((ops.foldl applyLedgerOp p).all_positions.map (fun r => r.datetime) =
        p.all_positions.map (fun r => r.datetime) ++
          marketDatetimes p.symbol_list.headI ops) ∧
      ((ops.foldl applyLedgerOp p).all_holdings.map (fun r => r.datetime) =
        p.all_holdings.map (fun r => r.datetime) ++
          marketDatetimes p.symbol_list.headI ops)
  | [], p => by simp [marketDatetimes]
  | op :: ops, p => by
    have ih := foldl_ledger_datetimes ops (applyLedgerOp p op)
    rw [applyLedgerOp_symbol_list p op] at ih
    simp only [List.foldl_cons]
    cases op with
    | market b =>
      refine ⟨?_, ?_⟩
      · rw [ih.1]
        simp [applyLedgerOp, Portfolio.update_timeindex, marketDatetimes,
          List.filterMap_cons]
      · rw [ih.2]
        simp [applyLedgerOp, Portfolio.update_timeindex, marketDatetimes,
          List.filterMap_cons]
    | signal e =>
      refine ⟨?_, ?_⟩
      · rw [ih.1]
        cases e <;>
          simp [applyLedgerOp, Portfolio.update_signal, marketDatetimes,
            List.filterMap_cons]
      · rw [ih.2]
        cases e <;>
          simp [applyLedgerOp, Portfolio.update_signal, marketDatetimes,
            List.filterMap_cons]
    | fill b e =>
      refine ⟨?_, ?_⟩
      · rw [ih.1]
        cases e <;>
          simp [applyLedgerOp, Portfolio.update_fill,
            Portfolio.update_holdings_from_fill,
            Portfolio.update_positions_from_fill, marketDatetimes,
            List.filterMap_cons]
      · rw [ih.2]
        cases e <;>
          simp [applyLedgerOp, Portfolio.update_fill,
            Portfolio.update_holdings_from_fill,
            Portfolio.update_positions_from_fill, marketDatetimes,
            List.filterMap_cons]

/-- The MARKET count is the length of the MARKET datetime list. -/
theorem marketCount_eq_length (sym : String) (ops : List LedgerOp) :
    marketCount ops = (marketDatetimes sym ops).length := by
  induction ops with
  | nil => rfl
  | cons op ops ih =>
    cases op <;>
      · simp only [marketCount, marketDatetimes, List.countP_cons,
          List.filterMap_cons] at ih ⊢
        simp [ih]

/-- C2: starting from a freshly constructed portfolio, after processing
exactly `marketCount ops` MARKET events through update_timeindex
(with arbitrary interleaved signal and fill operations) both histories
hold exactly that many records plus the seed record, the datetime
columns are the seed start date followed by the MARKET bar datetimes,
and when the bar datetimes strictly increase from the start date the
datetime columns are strictly increasing. -/
theorem ledger_append_invariant (symbols : List String) (start : Int)
    (cap : ℚ) (ops : List LedgerOp)
    (hmono : List.Chain' (· < ·)
      (start :: marketDatetimes symbols.headI ops)) :
    ((ops.foldl applyLedgerOp
        (Portfolio.init symbols start cap)).all_positions.length =
      marketCount ops + 1) ∧
    ((ops.foldl applyLedgerOp
        (Portfolio.init symbols start cap)).all_holdings.length =
      marketCount ops + 1) ∧
    ((ops.foldl applyLedgerOp
        (Portfolio.init symbols start cap)).all_positions.map
        (fun r => r.datetime) =
      start :: marketDatetimes symbols.headI ops) ∧
    ((ops.foldl applyLedgerOp
        (Portfolio.init symbols start cap)).all_holdings.map
        (fun r => r.datetime) =
      start :: marketDatetimes symbols.headI ops) ∧
    List.Chain' (· < ·)
      ((ops.foldl applyLedgerOp
          (Portfolio.init symbols start cap)).all_positions.map
        (fun r => r.datetime)) ∧
    List.Chain' (· < ·)
      ((ops.foldl applyLedgerOp
          (Portfolio.init symbols start cap)).all_holdings.map
        (fun r => r.datetime)) := by
  have h := foldl_ledger_datetimes ops (Portfolio.init symbols start cap)
  have hpos : (ops.foldl applyLedgerOp
      (Portfolio.init symbols start cap)).all_positions.map
      (fun r => r.datetime) = start :: marketDatetimes symbols.headI ops := by
    rw [h.1]
    simp [Portfolio.init, construct_all_positions]
  have hhold : (ops.foldl applyLedgerOp
      (Portfolio.init symbols start cap)).all_holdings.map
      (fun r => r.datetime) = start :: marketDatetimes symbols.headI ops := by
    rw [h.2]
    simp [Portfolio.init, construct_all_holdings]
  refine ⟨?_, ?_, hpos, hhold, ?_, ?_⟩
  · have := congrArg List.length hpos
    simpa [marketCount_eq_length symbols.headI ops, Nat.add_comm] using this
  · have := congrArg List.length hhold
    simpa [marketCount_eq_length symbols.headI ops, Nat.add_comm] using this
  · rw [hpos]; exact hmono
  · rw [hhold]; exact hmono

/-- C2 witness: two MARKET bars at datetimes 1 and 2 with a BUY fill in
between, starting at datetime 0. -/
theorem ledger_append_invariant_witness :
    List.Chain' (· < ·)
      ((0 : Int) :: marketDatetimes (["A"] : List String).headI
        [LedgerOp.market ⟨fun _ => 1, fun _ => 10⟩,
         LedgerOp.fill ⟨fun _ => 1, fun _ => 10⟩
           (Event.fill ⟨1, "A", "SIM", 100, "BUY", 0, 1⟩),
         LedgerOp.market ⟨fun _ => 2, fun _ => 11⟩]) ∧
    (([LedgerOp.market ⟨fun _ => 1, fun _ => 10⟩,
       LedgerOp.fill ⟨fun _ => 1, fun _ => 10⟩
         (Event.fill ⟨1, "A", "SIM", 100, "BUY", 0, 1⟩),
       LedgerOp.market ⟨fun _ => 2, fun _ => 11⟩] : List LedgerOp).foldl
        applyLedgerOp (Portfolio.init ["A"] 0 100000)).all_positions.length =
      marketCount
        [LedgerOp.market ⟨fun _ => 1, fun _ => 10⟩,
         LedgerOp.fill ⟨fun _ => 1, fun _ => 10⟩
           (Event.fill ⟨1, "A", "SIM", 100, "BUY", 0, 1⟩),
         LedgerOp.market ⟨fun _ => 2, fun _ => 11⟩] + 1 :=
  ⟨by simp [marketDatetimes, List.filterMap_cons, List.chain'_cons],
    (ledger_append_invariant ["A"] 0 100000
      [LedgerOp.market ⟨fun _ => 1, fun _ => 10⟩,
       LedgerOp.fill ⟨fun _ => 1, fun _ => 10⟩
         (Event.fill ⟨1, "A", "SIM", 100, "BUY", 0, 1⟩),
       LedgerOp.market ⟨fun _ => 2, fun _ => 11⟩]
      (by simp [marketDatetimes, List.filterMap_cons, List.chain'_cons])).1⟩

/-! ### Claim C5 -/

/-- C5: if a drain pass completes (no queue cells are left, which is how
the inner while-loop ends before the next Advance begins), the dispatch
trace is exactly the initial queue followed by every cell enqueued
during the pass, in enqueue order, with None cells discarded — exact
FIFO with no reordering — and every event enqueued during the pass (in
particular every SignalEvent enqueued while a MarketEvent is processed)
is dispatched within that same pass. -/
theorem drain_fifo_complete {σ : Type}
    (step : σ → Event → σ × List (Option Event)) (fuel : Nat) (st : σ)
    (q : List (Option Event)) (hdone : (drain step fuel st q).rem = []) :
    (drain step fuel st q).trace =
      (q ++ (drain step fuel st q).gen).reduceOption ∧
    (∀ e : Event, some e ∈ (drain step fuel st q).gen →
      e ∈ (drain step fuel st q).trace) := by
  have main : ∀ (fuel : Nat) (st : σ) (q : List (Option Event)),
      (drain step fuel st q).rem = [] →
      (drain step fuel st q).trace =
        (q ++ (drain step fuel st q).gen).reduceOption := by
    intro fuel
    induction fuel with
    | zero =>
      intro st q h
      simp only [drain] at h
      subst h
      simp [drain]
    | succ n ih =>
      intro st q h
      cases q with
      | nil => simp [drain]
      | cons o q' =>
        cases o with
        | none =>
          have := ih st q' (by simpa [drain] using h)
          simpa [drain] using this
        | some e =>
          have hrem : (drain step n (step st e).1
              (q' ++ (step st e).2)).rem = [] := by
            simpa [drain] using h
          have := ih (step st e).1 (q' ++ (step st e).2) hrem
          simp [drain, this, List.reduceOption_append, List.append_assoc]
  refine ⟨main fuel st q hdone, ?_⟩
  intro e he
  rw [main fuel st q hdone, List.reduceOption_mem_iff]
  exact List.mem_append_right _ he

/-- C5 witness: a single MARKET event with the concrete strategy and
executor; the pass completes and the trace is the full enqueue order. -/
theorem drain_fifo_complete_witness :
    (drain (btStep oneSignalStrategy simpleExecutor) 10 witnessState
        [some Event.market]).rem = [] ∧
    (drain (btStep oneSignalStrategy simpleExecutor) 10 witnessState
        [some Event.market]).trace =
      ([some Event.market] ++
        (drain (btStep oneSignalStrategy simpleExecutor) 10 witnessState
          [some Event.market]).gen).reduceOption :=
  ⟨rfl, (drain_fifo_complete (btStep oneSignalStrategy simpleExecutor) 10
      witnessState [some Event.market] rfl).1⟩

/-! ### Claim C9 -/

/-- C9 counterexample: the drain loop of backtest.py has no else branch,
so an event whose discriminant is BOGUS is dispatched as a no-op — no
error, no state change, nothing enqueued — and the pass continues past
it: the FILL event queued behind it is still dispatched and counted.
The run does not abort. -/
theorem unknown_event_not_fatal :
    btStep oneSignalStrategy simpleExecutor witnessState
        (Event.other "BOGUS") = (witnessState, []) ∧
    (drain (btStep oneSignalStrategy simpleExecutor) 10 witnessState
        [some (Event.other "BOGUS"),
         some (Event.fill ⟨1, "A", "SIM", 100, "BUY", 0, 1⟩)]).rem = [] ∧
    (drain (btStep oneSignalStrategy simpleExecutor) 10 witnessState
        [some (Event.other "BOGUS"),
         some (Event.fill ⟨1, "A", "SIM", 100, "BUY", 0, 1⟩)]).trace =
      [Event.other "BOGUS",
       Event.fill ⟨1, "A", "SIM", 100, "BUY", 0, 1⟩] ∧
    (drain (btStep oneSignalStrategy simpleExecutor) 10 witnessState
        [some (Event.other "BOGUS"),
         some (Event.fill ⟨1, "A", "SIM", 100, "BUY", 0, 1⟩)]).state.fills =
      1 :=
  ⟨rfl, rfl, rfl, rfl⟩

/-- C9 amended: dispatching an event whose discriminant is none of
MARKET, SIGNAL, ORDER, FILL is a silent no-op — the state is returned
unchanged and nothing is enqueued — and a drain pass simply carries on
with the rest of the queue; no error is raised and the run continues. -/
theorem unknown_event_skipped {Strat : Type}
    (calcSig : Strat → Bar → Strat × List (Option Event))
    (execOrd : OrderData → List (Option Event)) (st : BTState Strat)
    (ty : String) (fuel : Nat) (q : List (Option Event))
    (h : ty ∉ (["MARKET", "SIGNAL", "ORDER", "FILL"] : List String)) :
    btStep calcSig execOrd st (Event.other ty) = (st, []) ∧
    (drain (btStep calcSig execOrd) (fuel + 1) st
        (some (Event.other ty) :: q)).state =
      (drain (btStep calcSig execOrd) fuel st q).state ∧
    (drain (btStep calcSig execOrd) (fuel + 1) st
        (some (Event.other ty) :: q)).trace =
      Event.other ty :: (drain (btStep calcSig execOrd) fuel st q).trace ∧
    (drain (btStep calcSig execOrd) (fuel + 1) st
        (some (Event.other ty) :: q)).rem =
      (drain (btStep calcSig execOrd) fuel st q).rem := by
  refine ⟨rfl, ?_, ?_, ?_⟩ <;> simp [drain, btStep]

/-- C9 amended witness: the BOGUS discriminant at a concrete state. -/
theorem unknown_event_skipped_witness :
    ("BOGUS" : String) ∉ (["MARKET", "SIGNAL", "ORDER", "FILL"] : List String) ∧
    btStep oneSignalStrategy simpleExecutor witnessState
      (Event.other "BOGUS") = (witnessState, []) :=
  ⟨by decide, (unknown_event_skipped oneSignalStrategy simpleExecutor
    witnessState "BOGUS" 0 [] (by decide)).1⟩

/-! ### Claim C6 -/

/-- C6 counterexample: on the holdings totals 100000, 101000, 99000 the
first equity-curve cell is NaN, not the base 1.0 the claim states: the
first cell of `pct_change` is NaN and `cumprod` leaves a NaN cell NaN. -/
theorem equity_curve_head_is_nan_not_one :
    (create_equity_curve [100000, 101000, 99000]).2.head? = some none ∧
    (create_equity_curve [100000, 101000, 99000]).2.head? ≠
      some (some (1 : ℚ)) :=
  ⟨rfl, by decide⟩

/-- Cell `t` of the pct_change tail is the quotient of consecutive
totals minus one. -/
theorem pctChangeAux_get? :
    ∀ (rest : List ℚ) (prev : ℚ) (t : Nat), t < rest.length →
      (pctChangeAux prev rest).get? t =
        some (some (rest.getD t 0 / (prev :: rest).getD t 0 - 1))
  | [], _, t, ht => absurd ht (by simp)
  | _ :: _, _, 0, _ => rfl
  | y :: ys, prev, t + 1, ht => by
    have := pctChangeAux_get? ys y t (by simpa using ht)
    simpa [pctChangeAux, List.getD_cons_succ] using this

/-- Head cell of the skipna cumulative product over a list whose head is
not NaN. -/
theorem cumprodSkipna_get?_zero (l : List (Option ℚ)) (acc z : ℚ)
    (h : l.get? 0 = some (some z)) :
    (cumprodSkipna acc l).get? 0 = some (some (acc * z)) := by
  cases l with
  | nil => simp at h
  | cons c l' =>
    cases c with
    | none => simp at h
    | some w =>
      simp at h
      subst h
      rfl

/-- Adjacent cells of the skipna cumulative product: when cell `t` of
the output and cell `t+1` of the input are both not NaN, output cell
`t+1` is output cell `t` times input cell `t+1`. -/
theorem cumprodSkipna_get?_succ :
    ∀ (l : List (Option ℚ)) (acc : ℚ) (t : Nat) (a y : ℚ),
      (cumprodSkipna acc l).get? t = some (some a) →
      l.get? (t + 1) = some (some y) →
      (cumprodSkipna acc l).get? (t + 1) = some (some (a * y))
  | [], _, t, a, y, h1, _ => by simp [cumprodSkipna] at h1
  | c :: l', acc, 0, a, y, h1, h2 => by
    cases c with
    | none => simp [cumprodSkipna] at h1
    | some w =>
      simp [cumprodSkipna] at h1
      subst h1
      exact cumprodSkipna_get?_zero l' (acc * w) y (by simpa using h2)
  | c :: l', acc, t + 1, a, y, h1, h2 => by
    cases c with
    | none =>
      have := cumprodSkipna_get?_succ l' acc t a y
        (by simpa [cumprodSkipna] using h1) (by simpa using h2)
      simpa [cumprodSkipna] using this
    | some w =>
      have := cumprodSkipna_get?_succ l' (acc * w) t a y
        (by simpa [cumprodSkipna] using h1) (by simpa using h2)
      simpa [cumprodSkipna] using this

/-- Head row of the drawdown loop. -/
theorem drawdownsAux_get?_zero (l : List (Option ℚ)) (h : ℚ)
    (d : Option ℚ) (p : Option ℚ) (hp : l.get? 0 = some p) :
    (drawdownsAux h d l).get? 0 = some (ddStep h d p) := by
  cases l with
  | nil => simp at hp
  | cons c l' =>
    simp at hp
    subst hp
    rfl

/-- Adjacent rows of the drawdown loop: row `t+1` is one `ddStep` from
row `t`, fed with price cell `t+1`. -/
theorem drawdownsAux_get?_succ :
    ∀ (l : List (Option ℚ)) (h : ℚ) (d : Option ℚ) (t : Nat)
      (r : ℚ × Option ℚ × Option ℚ) (p : Option ℚ),
      (drawdownsAux h d l).get? t = some r →
      l.get? (t + 1) = some p →
      (drawdownsAux h d l).get? (t + 1) = some (ddStep r.1 r.2.2 p)
  | [], _, _, t, r, p, h1, _ => by simp [drawdownsAux] at h1
  | c :: l', h, d, 0, r, p, h1, h2 => by
    simp [drawdownsAux] at h1
    subst h1
    exact drawdownsAux_get?_zero l' (ddStep h d c).1 (ddStep h d c).2.2 p
      (by simpa using h2)
  | c :: l', h, d, t + 1, r, p, h1, h2 => by
    have := drawdownsAux_get?_succ l' (ddStep h d c).1 (ddStep h d c).2.2
      t r p (by simpa [drawdownsAux] using h1) (by simpa using h2)
    simpa [drawdownsAux] using this

/-- One drawdown-loop step on a non-NaN price cell, in claim terms:
high-water mark is the max, drawdown is hwm minus price, and the
duration either resets to 0 on zero drawdown or is the previous duration
plus one — NaN propagating through the `map`. -/
theorem ddStep_some (h : ℚ) (d : Option ℚ) (p : ℚ) :
    ddStep h d (some p) =
      (max h p, some (max h p - p),
        if max h p - p = 0 then some 0 else d.map fun z => z + 1) := by
  have hm : pymax h (some p) = max h p := by
    show (if h < p then p else h) = max h p
    rcases lt_or_le h p with hlt | hle
    · rw [if_pos hlt, max_eq_right hlt.le]
    · rw [if_neg (not_lt.mpr hle), max_eq_left hle]
  unfold ddStep
  rw [hm]
  simp [ddIsZero]

/-- C6 amended: with the NaN bookkeeping of pandas made explicit, the
pipeline satisfies the claimed recurrences away from index 0: the first
returns cell is NaN; `return(t) = total(t)/total(t-1) - 1` for `t ≥ 1`;
the equity curve starts NaN (not 1.0) and satisfies
`ec(1) = 1 * (1 + return(1))` and `ec(t+1) = ec(t) * (1 + return(t+1))`;
the drawdown series starts NaN, its later cells come from the
`drawdownsAux` rows, those rows step by `ddStep` from high-water mark 0
and NaN duration, one `ddStep` on a non-NaN cell realises
`hwm(t) = max(hwm(t-1), ec(t))`, `drawdown(t) = hwm(t) - ec(t)` and
`duration(t) = 0 if drawdown(t) = 0 else duration(t-1) + 1` with NaN
propagating; and the two reported numbers are the NaN-skipping maxima of
the drawdown and duration series. -/
theorem equity_and_drawdown_recurrences (x : ℚ) (rest : List ℚ) :
    (pct_change (x :: rest)).head? = some none ∧
    (∀ t : Nat, t + 1 < (x :: rest).length →
      (pct_change (x :: rest)).get? (t + 1) =
        some (some ((x :: rest).getD (t + 1) 0 / (x :: rest).getD t 0 - 1))) ∧
    (create_equity_curve (x :: rest)).2.head? = some none ∧
    (∀ r : ℚ, (pct_change (x :: rest)).get? 1 = some (some r) →
      (create_equity_curve (x :: rest)).2.get? 1 = some (some (1 * (1 + r)))) ∧
    (∀ (t : Nat) (a r : ℚ),
      (create_equity_curve (x :: rest)).2.get? (t + 1) = some (some a) →
      (pct_change (x :: rest)).get? (t + 2) = some (some r) →
      (create_equity_curve (x :: rest)).2.get? (t + 2) =
        some (some (a * (1 + r)))) ∧
    (create_drawdowns ((create_equity_curve (x :: rest)).2)).1.head? =
      some none ∧
    (∀ t : Nat,
      (create_drawdowns ((create_equity_curve (x :: rest)).2)).1.get? (t + 1) =
        ((drawdownsAux 0 none
            ((create_equity_curve (x :: rest)).2.tail)).get? t).map
          (fun r => r.2.1)) ∧
    (∀ p : Option ℚ,
      ((create_equity_curve (x :: rest)).2.tail).get? 0 = some p →
      (drawdownsAux 0 none ((create_equity_curve (x :: rest)).2.tail)).get? 0 =
        some (ddStep 0 none p)) ∧
    (∀ (t : Nat) (r : ℚ × Option ℚ × Option ℚ) (p : Option ℚ),
      (drawdownsAux 0 none ((create_equity_curve (x :: rest)).2.tail)).get? t =
        some r →
      ((create_equity_curve (x :: rest)).2.tail).get? (t + 1) = some p →
      (drawdownsAux 0 none ((create_equity_curve (x :: rest)).2.tail)).get?
          (t + 1) =
        some (ddStep r.1 r.2.2 p)) ∧
    (∀ (h : ℚ) (d : Option ℚ) (p : ℚ),
      ddStep h d (some p) =
        (max h p, some (max h p - p),
          if max h p - p = 0 then some 0 else d.map fun z => z + 1)) ∧
    (create_drawdowns ((create_equity_curve (x :: rest)).2)).2.1 =
      omaxList ((create_drawdowns ((create_equity_curve (x :: rest)).2)).1) ∧
    (create_drawdowns ((create_equity_curve (x :: rest)).2)).2.2 =
      omaxList (none ::
        (drawdownsAux 0 none
            ((create_equity_curve (x :: rest)).2.tail)).map
          (fun r => r.2.2)) := by
  refine ⟨rfl, ?_, rfl, ?_, ?_, rfl, ?_, ?_, ?_, ddStep_some, rfl, rfl⟩
  · intro t ht
    have := pctChangeAux_get? rest x t (by simpa using ht)
    simpa [pct_change, List.getD_cons_succ] using this
  · intro r hr
    have htail : (pctChangeAux x rest).get? 0 = some (some r) := by
      simpa [pct_change] using hr
    have h1 : (onePlus (pctChangeAux x rest)).get? 0 = some (some (1 + r)) := by
      simp only [onePlus, List.get?_eq_getElem?, List.getElem?_map] at htail ⊢
      simp [htail]
    have := cumprodSkipna_get?_zero (onePlus (pctChangeAux x rest)) 1
      (1 + r) h1
    simpa [create_equity_curve, pct_change, onePlus, cumprodSkipna] using this
  · intro t a r h1 h2
    have h2' : (onePlus (pct_change (x :: rest))).get? (t + 2) =
        some (some (1 + r)) := by
      simp only [onePlus, List.get?_eq_getElem?, List.getElem?_map] at h2 ⊢
      simp [h2]
    exact cumprodSkipna_get?_succ (onePlus (pct_change (x :: rest))) 1
      (t + 1) a (1 + r) h1 h2'
  · intro t
    exact List.get?_map _ _ _
  · intro p hp
    exact drawdownsAux_get?_zero _ 0 none p hp
  · intro t r p h1 h2
    exact drawdownsAux_get?_succ _ 0 none t r p h1 h2

/-- C6 amended witness: the concrete totals 100000, 101000, 99000;
the returns cell at index 1 evaluates as claimed. -/
theorem equity_and_drawdown_recurrences_witness :
    (0 + 1 < ([100000, 101000, 99000] : List ℚ).length) ∧
    (pct_change [100000, 101000, 99000]).get? (0 + 1) =
      some (some (([100000, 101000, 99000] : List ℚ).getD (0 + 1) 0 /
        ([100000, 101000, 99000] : List ℚ).getD 0 0 - 1)) :=
  ⟨by decide,
    (equity_and_drawdown_recurrences 100000 [101000, 99000]).2.1 0 (by decide)⟩

end Backtester
